import Mathlib

set_option maxRecDepth 40000

/-!
# Verification of the order-bot backend's recommendation pipeline

This file gives a shallow embedding, in Lean 4, of the request-handling logic
of the food-ordering backend (`server.js`).  The repository carries two
near-duplicate variants of the server in that file; the first (current)
variant is embedded as the primary definition, and the second (older)
variant's response-extraction step is embedded separately where the two
disagree.

JavaScript semantics are modelled explicitly:

* machine strings are `String` (lists of characters); `s.toLowerCase()`,
  `s.includes(...)`, `s.trim()` and the two fence-handling regexes are
  translated character by character;
* JSON numbers are modelled exactly as a scaled decimal `JNum`
  (mantissa and power-of-ten exponent) so that every definition stays
  kernel-computable; an injection into `ℚ` is used in proofs to reason
  about the ordering that the JavaScript comparator induces;
* `JSON.parse` is a fuel-indexed recursive-descent parser over the JSON
  grammar (objects, arrays, strings with escapes, numbers, literals);
* truthiness checks (`if (query)`, `hotel.latitude && hotel.longitude`,
  `s || 'default'`) are modelled by explicit `jsTruthy*` functions;
* exceptions are modelled by `Except`: a thrown error is an `Except.error`
  carrying a `JsErr` describing the JavaScript error raised;
* the two external effects — the generative-model call and the document
  store — are passed in as parameters (`modelReply`, `menuFetch`, ...), so
  theorems quantify over every possible outcome of those calls.
-/

/-! ## JavaScript-flavoured character and string helpers -/

/-- The backtick character, written via its code point. -/
def btick : Char := Char.ofNat 96

/-- The opening-brace character, written via its code point. -/
def lbrace : Char := Char.ofNat 123

/-- The closing-brace character, written via its code point. -/
def rbrace : Char := Char.ofNat 125

/-- Whitespace for the JavaScript regex class `\s` and `String.prototype.trim`
(restricted to the ASCII whitespace the server's strings can contain). -/
def jsWs (c : Char) : Bool :=
  c = ' ' || c = '\t' || c = '\n' || c = '\r' || c = '\x0b' || c = '\x0c'

/-- Whitespace accepted between tokens by `JSON.parse` (the JSON grammar's
`ws` production: space, tab, line feed, carriage return only). -/
def jsonWs (c : Char) : Bool :=
  c = ' ' || c = '\t' || c = '\n' || c = '\r'

/-- Drop trailing characters satisfying `p` (the second half of `trim`). -/
def dropTrailing (p : Char → Bool) (l : List Char) : List Char :=
  (l.reverse.dropWhile p).reverse

/-- `String.prototype.trim` on the underlying character list. -/
def trimJs (l : List Char) : List Char :=
  dropTrailing jsWs (l.dropWhile jsWs)

/-- Prefix test on character lists (structured so that it reduces by
computation when the leading characters are concrete). -/
def isPre : List Char → List Char → Bool
  | [], _ => true
  | _ :: _, [] => false
  | a :: as, b :: bs => (a == b) && isPre as bs

/-- `hay.includes(needle)` — substring occurrence test. -/
def containsSeq (hay needle : List Char) : Bool :=
  isPre needle hay ||
    match hay with
    | [] => false
    | _ :: t => containsSeq t needle

/-- `s.toLowerCase()` on the underlying character list (ASCII case fold,
which is what the stored titles and queries use). -/
def lowerJs (l : List Char) : List Char := l.map Char.toLower

/-- Truthiness of an optional string value: `undefined` and `""` are falsy. -/
def jsTruthyS (o : Option String) : Bool :=
  match o with
  | some s => !(s = "")
  | none => false

/-- Truthiness of an optional numeric field: `undefined` and `0` are falsy. -/
def jsTruthyQ (o : Option ℚ) : Bool :=
  match o with
  | some x => !(x = 0)
  | none => false

/-- `o || d` for an optional string field with a default (empty string is
falsy, so it also falls back to the default). -/
def jsOrDefault (o : Option String) (d : String) : String :=
  match o with
  | some s => if s = "" then d else s
  | none => d

/-! ## Exact JSON numbers

`JSON.parse` produces IEEE doubles; the comparator `b.relevance - a.relevance`
only ever inspects the sign of a difference, so the order of the parsed
decimal literals is what matters.  `JNum` keeps the literal exactly as
`m * 10 ^ e`; `JNum.val` injects it into `ℚ` for reasoning. -/

/-- An exactly-represented decimal number `m * 10 ^ e`. -/
structure JNum where
  m : Int
  e : Int
deriving DecidableEq, Repr

/-- Power of ten, kernel-computable. -/
def tenPow : Nat → Int
  | 0 => 1
  | n + 1 => 10 * tenPow n

/-- Strict numeric comparison of two `JNum`s (scale both onto the smaller
exponent and compare integers). -/
def JNum.ltB (a b : JNum) : Bool :=
  let k : Int := if a.e ≤ b.e then a.e else b.e
  decide (a.m * tenPow (a.e - k).toNat < b.m * tenPow (b.e - k).toNat)

/-- Numeric equality of two `JNum`s (neither is less than the other). -/
def JNum.eqB (a b : JNum) : Bool :=
  !JNum.ltB a b && !JNum.ltB b a

/-- The rational value denoted by a `JNum` (proof-side valuation). -/
def JNum.val (a : JNum) : ℚ := (a.m : ℚ) * (10 : ℚ) ^ a.e

/-! ## JSON values and `JSON.parse` -/

/-- Parsed JSON values. -/
inductive Json where
  | null
  | bool (b : Bool)
  | num (q : JNum)
  | str (s : String)
  | arr (elements : List Json)
  | obj (fields : List (String × Json))

/-- Hexadecimal digit value, for `\uXXXX` escapes. -/
def hexVal (c : Char) : Option Nat :=
  if c.isDigit then some (c.toNat - 48)
  else if 'a' ≤ c && c ≤ 'f' then some (c.toNat - 87)
  else if 'A' ≤ c && c ≤ 'F' then some (c.toNat - 55)
  else none

/-- Single-character JSON string escapes. -/
def escChar (e : Char) : Option Char :=
  if e = '"' then some '"'
  else if e = '\\' then some '\\'
  else if e = '/' then some '/'
  else if e = 'b' then some '\x08'
  else if e = 'f' then some '\x0c'
  else if e = 'n' then some '\n'
  else if e = 'r' then some '\r'
  else if e = 't' then some '\t'
  else none

/-- Body of a JSON string literal, after the opening quote: returns the
decoded characters and the input following the closing quote.  Raw control
characters are a parse error, as in `JSON.parse`. -/
def parseStrBody : List Char → Option (List Char × List Char)
  | [] => none
  | '"' :: rest => some ([], rest)
  | '\\' :: 'u' :: h1 :: h2 :: h3 :: h4 :: rest =>
    match hexVal h1, hexVal h2, hexVal h3, hexVal h4 with
    | some a, some b, some c, some d =>
      (parseStrBody rest).map
        (fun p => (Char.ofNat (((a * 16 + b) * 16 + c) * 16 + d) :: p.1, p.2))
    | _, _, _, _ => none
  | '\\' :: e :: rest =>
    match escChar e with
    | some ch => (parseStrBody rest).map (fun p => (ch :: p.1, p.2))
    | none => none
  | c :: rest =>
    if c.toNat < 32 then none
    else (parseStrBody rest).map (fun p => (c :: p.1, p.2))

/-- Longest digit run at the front of the input. -/
def spanDigits : List Char → (List Char × List Char)
  | [] => ([], [])
  | c :: rest =>
    if c.isDigit then
      let p := spanDigits rest
      (c :: p.1, p.2)
    else ([], c :: rest)

/-- Numeric value of a digit run. -/
def digitsToNat (ds : List Char) : Nat :=
  ds.foldl (fun a c => 10 * a + (c.toNat - 48)) 0

/-- Exponent marker of a JSON number: `e`/`E` with an optional sign. -/
def parseExpPart : List Char → Option (Bool × List Char)
  | 'e' :: '+' :: r => some (false, r)
  | 'e' :: '-' :: r => some (true, r)
  | 'e' :: r => some (false, r)
  | 'E' :: '+' :: r => some (false, r)
  | 'E' :: '-' :: r => some (true, r)
  | 'E' :: r => some (false, r)
  | _ => none

/-- Assemble a `JNum` from sign, integer digits, fraction digits and the
remaining input (which may begin with an exponent part). -/
def finishNum (neg : Bool) (ip fp : List Char) (r : List Char) :
    Option (JNum × List Char) :=
  let mAbs : Int := (digitsToNat ip : Int) * tenPow fp.length + (digitsToNat fp : Int)
  let m : Int := if neg then -mAbs else mAbs
  match parseExpPart r with
  | none => some (⟨m, -(fp.length : Int)⟩, r)
  | some (eneg, r4) =>
    let edr := spanDigits r4
    if edr.1 = [] then none
    else
      let eAbs : Int := (digitsToNat edr.1 : Int)
      let e : Int := (if eneg then -eAbs else eAbs) - (fp.length : Int)
      some (⟨m, e⟩, edr.2)

/-- A JSON numeric literal (the optional minus sign is split off by the
caller).  Leading zeros and a dot without fraction digits are parse errors,
as in the JSON grammar. -/
def parseNumBody (neg : Bool) (l : List Char) : Option (JNum × List Char) :=
  let ipr := spanDigits l
  if ipr.1 = [] then none
  else if ipr.1.head? = some '0' && ipr.1.length > 1 then none
  else
    match ipr.2 with
    | '.' :: r =>
      let fpr := spanDigits r
      if fpr.1 = [] then none
      else finishNum neg ipr.1 fpr.1 fpr.2
    | r => finishNum neg ipr.1 [] r

/-- Parser jobs: a single value, the items of an array after `[`, or the
fields of an object after the opening brace. -/
inductive PJob where
  | val
  | arrItems
  | objItems

/-- Parser outputs, one constructor per job. -/
inductive POut where
  | v (j : Json) (rest : List Char)
  | vs (elements : List Json) (rest : List Char)
  | fs (fields : List (String × Json)) (rest : List Char)

/-- Skip JSON inter-token whitespace. -/
def skipWs (l : List Char) : List Char := l.dropWhile jsonWs

/-- Recursive-descent JSON parser.  `fuel` bounds the depth of the descent
(each recursive call decreases it by one, keeping the definition
structurally recursive and hence kernel-computable); callers supply fuel
larger than any possible descent for their input. -/
def parseF : Nat → PJob → List Char → Option POut
  | 0, _, _ => none
  | _ + 1, .val, [] => none
  | f + 1, .val, c :: rest =>
    if c = lbrace then
      match parseF f .objItems (skipWs rest) with
      | some (.fs fields r) => some (.v (.obj fields) r)
      | _ => none
    else if c = '[' then
      match parseF f .arrItems (skipWs rest) with
      | some (.vs elements r) => some (.v (.arr elements) r)
      | _ => none
    else if c = '"' then
      match parseStrBody rest with
      | some (cs, r) => some (.v (.str (String.mk cs)) r)
      | none => none
    else if c = 't' then
      match rest with
      | 'r' :: 'u' :: 'e' :: r => some (.v (.bool true) r)
      | _ => none
    else if c = 'f' then
      match rest with
      | 'a' :: 'l' :: 's' :: 'e' :: r => some (.v (.bool false) r)
      | _ => none
    else if c = 'n' then
      match rest with
      | 'u' :: 'l' :: 'l' :: r => some (.v .null r)
      | _ => none
    else if c = '-' then
      match parseNumBody true rest with
      | some (q, r) => some (.v (.num q) r)
      | none => none
    else if c.isDigit then
      match parseNumBody false (c :: rest) with
      | some (q, r) => some (.v (.num q) r)
      | none => none
    else none
  | _ + 1, .arrItems, [] => none
  | f + 1, .arrItems, c :: rest =>
    if c = ']' then some (.vs [] rest)
    else
      match parseF f .val (c :: rest) with
      | some (.v j r) =>
        match skipWs r with
        | ',' :: r2 =>
          match parseF f .arrItems (skipWs r2) with
          | some (.vs [] _) => none
          | some (.vs js r3) => some (.vs (j :: js) r3)
          | _ => none
        | ']' :: r2 => some (.vs [j] r2)
        | _ => none
      | _ => none
  | _ + 1, .objItems, [] => none
  | f + 1, .objItems, c :: rest =>
    if c = rbrace then some (.fs [] rest)
    else if c = '"' then
      match parseStrBody rest with
      | some (cs, r) =>
        match skipWs r with
        | ':' :: r2 =>
          match parseF f .val (skipWs r2) with
          | some (.v j r3) =>
            match skipWs r3 with
            | ',' :: r4 =>
              match skipWs r4 with
              | '"' :: r5 =>
                match parseF f .objItems ('"' :: r5) with
                | some (.fs fields r6) => some (.fs ((String.mk cs, j) :: fields) r6)
                | _ => none
              | _ => none
            | c2 :: r4 =>
              if c2 = rbrace then some (.fs [(String.mk cs, j)] r4) else none
            | [] => none
          | _ => none
        | _ => none
      | none => none
    else none

/-- `JSON.parse(s)`: parse one value surrounded by optional whitespace;
any trailing non-whitespace makes the parse fail.  Returns `none` where
`JSON.parse` throws a `SyntaxError`. -/
def jsonParse (s : String) : Option Json :=
  match parseF (2 * s.data.length + 2) .val (skipWs s.data) with
  | some (.v j rest) => if skipWs rest = [] then some j else none
  | _ => none

/-! ## Fence handling — the two variants' response-extraction steps -/

/-- The pattern `\x60\x60\x60json\n` (first alternative of the current
variant's regex, lower-case tag). -/
def tagLower : List Char := "```json\n".data

/-- The pattern `\x60\x60\x60JSON\n` (first alternative, upper-case tag). -/
def tagUpper : List Char := "```JSON\n".data

/-- The pattern `\n\x60\x60\x60` (second alternative of the regex). -/
def closeFence : List Char := "\n```".data

/-- A bare triple-backtick fence. -/
def fence3 : List Char := "```".data

/-- The global replacement
`content.replace(/\x60\x60\x60(json|JSON)\n|\n\x60\x60\x60/g, '')`:
scan left to right; at each position remove the first alternative that
matches, otherwise keep the character.  `fuel` is the input length (one
unit is spent per step, and every step consumes at least one character,
so the fuel never runs out on the real argument). -/
def scanRemoveF : Nat → List Char → List Char
  | 0, l => l
  | _ + 1, [] => []
  | f + 1, c :: rest =>
    if isPre tagLower (c :: rest) then scanRemoveF f ((c :: rest).drop 8)
    else if isPre tagUpper (c :: rest) then scanRemoveF f ((c :: rest).drop 8)
    else if isPre closeFence (c :: rest) then scanRemoveF f ((c :: rest).drop 4)
    else c :: scanRemoveF f rest

/-- Current variant, line 90: strip markdown delimiters and trim. -/
def cleanedContent (content : String) : String :=
  String.mk (trimJs (scanRemoveF content.data.length content.data))

/-- Characters before the next triple-backtick fence (`none` if no fence
follows). -/
def takeToFence : List Char → Option (List Char)
  | [] => none
  | c :: rest =>
    if isPre fence3 (c :: rest) then some []
    else (takeToFence rest).map (fun l => c :: l)

/-- One attempted match of the older variant's fenced-block regex
`/\x60\x60\x60(?:json)?\s*([\s\S]*?)\s*\x60\x60\x60/` at the current
position: an opening fence, an optional `json` tag (greedy), greedy
whitespace, then a lazy capture up to the closing fence — so the capture is
the enclosed text with surrounding whitespace stripped.  `none` when no
complete match starts here. -/
def fencedAttempt (l : List Char) : Option (List Char) :=
  if isPre fence3 l then
    let afterOpen := l.drop 3
    let afterTag := if isPre "json".data afterOpen then afterOpen.drop 4 else afterOpen
    (takeToFence (afterTag.dropWhile jsWs)).map (dropTrailing jsWs)
  else none

/-- `content.match(...)` for the fenced-block regex: the leftmost position
from which a complete match is possible wins. -/
def fencedCapture : List Char → Option (List Char)
  | [] => none
  | c :: rest =>
    match fencedAttempt (c :: rest) with
    | some captured => some captured
    | none => fencedCapture rest

/-! ## JavaScript errors -/

deriving instance DecidableEq for Except

/-- The JavaScript errors the embedded code can raise. -/
inductive JsErr where
  | referenceError (name : String)
  | typeError (msg : String)
  | syntaxError
  | modelError (msg : String)
  | extractError (msg : String)
deriving DecidableEq, Repr

/-- `error.message`, as used by the chat endpoint's `details` field. -/
def errMessage : JsErr → String
  | .referenceError n => n ++ " is not defined"
  | .typeError m => m
  | .syntaxError => "Unexpected token in JSON"
  | .modelError m => m
  | .extractError m => m

/-- Older variant, lines 306-318: try `JSON.parse(content)` directly; on
failure, extract the first fenced block and parse its capture; if there is
no fenced block, throw. -/
def parseContentV2 (content : String) : Except JsErr Json :=
  match jsonParse content with
  | some j => .ok j
  | none =>
    match fencedCapture content.data with
    | some captured =>
      match jsonParse (String.mk captured) with
      | some j => .ok j
      | none => .error .syntaxError
    | none => .error (.extractError "Failed to extract JSON from Gemini response")

/-! ## Recommendation candidates (the parsed model reply) -/

/-- A recommendation candidate as the JavaScript code reads it off a parsed
array element: the `id` property (only a string can ever compare equal to a
menu identifier under `===`) and the `relevance` property (only a number
takes part in the comparator; anything else behaves as `NaN`, i.e. as a
tie). -/
structure Cand where
  id : Option String
  relevance : Option JNum
deriving DecidableEq, Repr

/-- Property lookup on a parsed JSON object (`JSON.parse` keeps the last
occurrence of a duplicated key). -/
def lookupField (fields : List (String × Json)) (k : String) : Option Json :=
  (fields.reverse.find? (fun p => p.1 == k)).map (fun p => p.2)

/-- Read one parsed array element as a candidate.  Reading a property of
`null` throws a `TypeError`; every other non-object value yields `undefined`
for both properties (it is silently dropped later). -/
def candOfJson : Json → Except JsErr Cand
  | .null => .error (.typeError "Cannot read properties of null")
  | .obj fields =>
    .ok { id := match lookupField fields "id" with
                | some (.str s) => some s
                | _ => none,
          relevance := match lookupField fields "relevance" with
                       | some (.num q) => some q
                       | _ => none }
  | _ => .ok { id := none, relevance := none }

/-- Read the parsed reply as a candidate array.  A non-array reply has no
`.sort` method, so the code throws a `TypeError` there. -/
def candsOf : Json → Except JsErr (List Cand)
  | .arr elements => elements.mapM candOfJson
  | _ => .error (.typeError "recommendedItems.sort is not a function")

/-! ## The stable sort

`Array.prototype.sort` is stable (required by the ECMAScript standard), so
its result is the unique stable ordering induced by the comparator.  The
comparator `(a, b) => b.relevance - a.relevance` orders by relevance
descending; a `NaN` difference (a missing or non-numeric `relevance`) is
treated as a tie, which keeps the original order. -/

/-- Insert `x` behind every already-placed element `y` with `keep y x`
(i.e. `y` strictly precedes `x` under the comparator); on ties `x`, which
comes earlier in the original order, goes first. -/
def insertKeep (keep : α → α → Bool) (x : α) : List α → List α
  | [] => [x]
  | y :: ys => if keep y x then y :: insertKeep keep x ys else x :: y :: ys

/-- The stable sort induced by the strict precedence test `keep`. -/
def stableSort (keep : α → α → Bool) : List α → List α
  | [] => []
  | x :: xs => insertKeep keep x (stableSort keep xs)

/-- Precedence test of the comparator `(a, b) => b.relevance - a.relevance`:
`y` strictly precedes a later `x` exactly when both relevances are numbers
and `y`'s is strictly greater. -/
def relKeep (y x : Cand) : Bool :=
  match y.relevance, x.relevance with
  | some a, some b => JNum.ltB b a
  | _, _ => false

/-! ## The data model -/

/-- A menu item (`fs_food_items` record merged with its document id).  The
fields the logic inspects are the identifier, the title, and the restaurant
foreign key; `distance` is the field the recommendations endpoint would
attach.  All remaining descriptive fields are opaque pass-through data and
are not modelled. -/
structure MenuItem where
  id : String
  productTitle : String
  restaurantId : String
  distance : Option ℚ := none
deriving DecidableEq, Repr

/-- A hotel/restaurant record (`fs_hotels` merged with its document id). -/
structure Place where
  id : String
  hotelName : Option String := none
  hotelAddress : Option String := none
  hotelPhoneNo : Option String := none
  hotelType : Option String := none
  latitude : Option ℚ := none
  longitude : Option ℚ := none
deriving DecidableEq, Repr

/-! ## The recommendation resolver (current variant, lines 55-108) -/

/-- The fast path's per-item test (line 59-61):
`item.productTitle.toLowerCase().includes(query.toLowerCase())`. -/
def exactMatch (query : Option String) (item : MenuItem) : Bool :=
  containsSeq (lowerJs item.productTitle.data) (lowerJs (query.getD "").data)

/-- Lines 95-100: sort the candidates by relevance (descending, stable),
look each identifier up in the menu snapshot, and drop the candidates whose
identifier has no match (`.filter(Boolean)`). -/
def resolveCands (menu : List MenuItem) (recommendedItems : List Cand) : List MenuItem :=
  (stableSort relKeep recommendedItems).filterMap
    (fun item => menu.find? (fun mi => item.id == some mi.id))

/-- The fallback path (lines 69-102): take the model reply, strip the
fences, `JSON.parse` it, read the candidates, sort and resolve them.
`modelReply` is the outcome of `model.generateContent(prompt)` followed by
`result.response.text()`: an `Except.error` models a model/network
failure.  The prompt itself (which is where `query`/`mealType` shape the
request) is invisible to the returned value. -/
def fallbackRecs (menu : List MenuItem) (modelReply : Except String String) :
    Except JsErr (List MenuItem) :=
  match modelReply with
  | .error e => .error (.modelError e)
  | .ok content =>
    match jsonParse (cleanedContent content) with
    | none => .error .syntaxError
    | some parsed =>
      match candsOf parsed with
      | .error e => .error e
      | .ok recommendedItems => .ok (resolveCands menu recommendedItems)

/-- The body of the resolver's `try` block: the fast path guarded by the
query's truthiness, falling back to the model-driven path. -/
def tryGetRecs (query : Option String) (menu : List MenuItem)
    (modelReply : Except String String) : Except JsErr (List MenuItem) :=
  if jsTruthyS query then
    let exactMatches := menu.filter (exactMatch query)
    if 0 < exactMatches.length then .ok (exactMatches.take 5)
    else fallbackRecs menu modelReply
  else fallbackRecs menu modelReply

/-- `getPersonalizedRecommendations(query, menu, mealType)` with the model
call's outcome passed in.  The `catch` block (lines 103-107) logs
`cleanedContent`, a `const` scoped to the `try` block; reading it from the
`catch` block throws `ReferenceError: cleanedContent is not defined`, so
every caught failure re-raises instead of reaching `return []`. -/
def getPersonalizedRecommendations (query : Option String) (menu : List MenuItem)
    (mealType : Option String) (modelReply : Except String String) :
    Except JsErr (List MenuItem) :=
  match tryGetRecs query menu modelReply with
  | .ok recs => .ok recs
  | .error _ => .error (.referenceError "cleanedContent")

/-! ## HTTP endpoint layer (current variant) -/

/-- Outcome of `POST /api/chat`: a 200 response with a `recommendations`
body, or a 500 response with `error` and `details` fields. -/
inductive ChatResult where
  | ok (recommendations : List MenuItem)
  | err (error : String) (details : String)
deriving DecidableEq, Repr

/-- `POST /api/chat` (lines 28-53).  `message`/`mealType` are the body
fields; `menuFetch` is the outcome of the `fs_food_items` fetch;
`modelReply` is the model call's outcome.  If both fields are falsy the
handler throws `Error('Message or meal type is required')`, which the
`catch` turns into a 500 with that message in `details`. -/
def chatRoute (message mealType : Option String)
    (menuFetch : Except String (List MenuItem))
    (modelReply : Except String String) : ChatResult :=
  if !jsTruthyS message && !jsTruthyS mealType then
    .err "An error occurred while processing the chat." "Message or meal type is required"
  else
    match menuFetch with
    | .error e => .err "An error occurred while processing the chat." e
    | .ok menu =>
      match getPersonalizedRecommendations message menu mealType modelReply with
      | .error e => .err "An error occurred while processing the chat." (errMessage e)
      | .ok recommendations => .ok recommendations

/-- Outcome of `GET /api/personalized-recommendations`: a 200 response with
the (possibly enriched) recommendation list, or a 500 with an `error`
field. -/
inductive RecsResult where
  | ok (recommendations : List MenuItem)
  | err (error : String)
deriving DecidableEq, Repr

/-- One step of the distance-enrichment map (lines 163-169): look the
item's restaurant up by the `restaurantId` foreign key; when the restaurant
has truthy coordinates the code calls `calculateDistance(...)`, a function
defined nowhere in the repository, so that call throws
`ReferenceError: calculateDistance is not defined`; otherwise the item is
returned unchanged (no `distance` is attached). -/
def enrichItem (restaurants : List Place) (item : MenuItem) :
    Except JsErr MenuItem :=
  match restaurants.find? (fun r => r.id == item.restaurantId) with
  | some restaurant =>
    if jsTruthyQ restaurant.latitude && jsTruthyQ restaurant.longitude then
      .error (.referenceError "calculateDistance")
    else .ok item
  | none => .ok item

/-- `GET /api/personalized-recommendations` (lines 149-177): fetch the menu,
run the resolver, and when both `lat` and `lon` are truthy fetch the
restaurants and run the enrichment map; any thrown error is caught and
turned into the endpoint's 500 response. -/
def personalizedRecommendationsRoute (query mealType lat lon : Option String)
    (menuFetch : Except String (List MenuItem))
    (restaurantsFetch : Except String (List Place))
    (modelReply : Except String String) : RecsResult :=
  match menuFetch with
  | .error _ => .err "Failed to fetch personalized recommendations"
  | .ok menu =>
    match getPersonalizedRecommendations query menu mealType modelReply with
    | .error _ => .err "Failed to fetch personalized recommendations"
    | .ok recommendations =>
      if jsTruthyS lat && jsTruthyS lon then
        match restaurantsFetch with
        | .error _ => .err "Failed to fetch personalized recommendations"
        | .ok restaurants =>
          match recommendations.mapM (enrichItem restaurants) with
          | .error _ => .err "Failed to fetch personalized recommendations"
          | .ok enriched => .ok enriched
      else .ok recommendations

/-- A record of the `GET /api/nearby-hotels` response array (lines 194-203):
display fields defaulted through `||`, the raw coordinates, and the
computed distance. -/
structure NearbyHotel where
  id : String
  name : String
  address : String
  phone : String
  hotelType : String
  latitude : Option ℚ
  longitude : Option ℚ
  distance : ℚ
deriving DecidableEq, Repr

/-- Outcome of `GET /api/nearby-hotels`. -/
inductive HotelsResult where
  | ok (hotels : List NearbyHotel)
  | err (error : String)
deriving DecidableEq, Repr

/-- Ascending-distance precedence for the sort
`(a, b) => a.distance - b.distance`. -/
def distKeep (y x : NearbyHotel) : Bool := decide (y.distance < x.distance)

/-- The truthiness filter on a place record (line 186):
`hotel.latitude && hotel.longitude`. -/
def placeHasCoords (h : Place) : Bool := jsTruthyQ h.latitude && jsTruthyQ h.longitude

/-- One step of the per-hotel map (lines 188-208): compute the distance
through the external call; a throw is caught, maps the hotel to `null`,
and `.filter(Boolean)` removes it — hence an `Option`. -/
def nearbyRecord (dist : Option String → Option String → ℚ → ℚ → Except Unit ℚ)
    (latitude longitude : Option String) (h : Place) : Option NearbyHotel :=
  match dist latitude longitude (h.latitude.getD 0) (h.longitude.getD 0) with
  | .error _ => none
  | .ok d => some { id := h.id,
                    name := jsOrDefault h.hotelName "Unnamed Hotel",
                    address := jsOrDefault h.hotelAddress "Address not available",
                    phone := jsOrDefault h.hotelPhoneNo "Phone not available",
                    hotelType := jsOrDefault h.hotelType "restaurant",
                    latitude := h.latitude,
                    longitude := h.longitude,
                    distance := d }

/-- `GET /api/nearby-hotels` (lines 179-218).  The `geolib.getDistance`
call (together with the `parseFloat` conversions feeding it) is an external
library call, passed in as `dist`.  Hotels whose `latitude`/`longitude` are
absent or `0` are removed up front by the truthiness filter; the survivors
are mapped, sorted by distance ascending, and truncated to 5. -/
def nearbyHotelsRoute (dist : Option String → Option String → ℚ → ℚ → Except Unit ℚ)
    (latitude longitude : Option String)
    (hotelsFetch : Except String (List Place)) : HotelsResult :=
  match hotelsFetch with
  | .error _ => .err "Failed to fetch nearby hotels"
  | .ok hotels =>
    .ok ((stableSort distKeep
      ((hotels.filter placeHasCoords).filterMap (nearbyRecord dist latitude longitude))).take 5)

/-! ## Geo-distance (modelled from the spec) -/

/-- Degrees to radians. -/
noncomputable def toRad (d : ℝ) : ℝ := d * (Real.pi / 180)

/-- The haversine of an angle. -/
noncomputable def hav (θ : ℝ) : ℝ := Real.sin (θ / 2) ^ 2

/-- Modelled from the spec: the repository computes distance through the
external `geolib.getDistance` library call (no distance formula appears in
the repository's own code), and §4.1 contracts
`distanceKm(lat1, lon1, lat2, lon2)` to be the standard great-circle
(haversine) distance in kilometres over decimal-degree inputs.  This is
that contract over the reals, with the conventional mean Earth radius. -/
noncomputable def distanceKm (lat1 lon1 lat2 lon2 : ℝ) : ℝ :=
  2 * 6371 * Real.arcsin (Real.sqrt
    (hav (toRad lat2 - toRad lat1) +
      Real.cos (toRad lat1) * Real.cos (toRad lat2) * hav (toRad lon2 - toRad lon1)))

/-! ## Claim-side auxiliary definitions -/

/-- A reply wrapped in a fenced block tagged `json` (claim C4's tagged
fence style). -/
def wrapJson (t : String) : String := "```json\n" ++ t ++ "\n```"

/-- A reply wrapped in an untagged fenced block. -/
def wrapPlain (t : String) : String := "```\n" ++ t ++ "\n```"

/-- The number of candidates in the parsed model reply (0 when the reply
is an error, fails to extract/parse, or is not a candidate array) — the
bound the fallback path actually enforces on its output length. -/
def numCandidates (modelReply : Except String String) : Nat :=
  match modelReply with
  | .error _ => 0
  | .ok content =>
    match jsonParse (cleanedContent content) with
    | none => 0
    | some parsed =>
      match candsOf parsed with
      | .error _ => 0
      | .ok items => items.length

/-- Candidate `a` is at least as relevant as `b` (stated through the
proof-side valuation; trivial when either relevance is missing). -/
def relGE (a b : Cand) : Prop :=
  ∀ x y, a.relevance = some x → b.relevance = some y → JNum.val y ≤ JNum.val x

/-- Boolean test that a candidate's relevance is numerically equal to `r`. -/
def candRelEqB (r : JNum) (c : Cand) : Bool :=
  match c.relevance with
  | some q => JNum.eqB q r
  | none => false

/-! ## Concrete records used by the closed evaluation theorems -/

/-- The spec §8 example menu item `{id:"1", productTitle:"Veg Burger"}`. -/
def demoBurger : MenuItem := { id := "1", productTitle := "Veg Burger", restaurantId := "r1" }

/-- The spec §8 example menu item `{id:"2", productTitle:"Chicken Wrap"}`. -/
def demoWrapItem : MenuItem := { id := "2", productTitle := "Chicken Wrap", restaurantId := "r1" }

/-- The spec §8 example menu snapshot. -/
def demoMenu : List MenuItem := [demoBurger, demoWrapItem]

/-- A restaurant record with truthy coordinates for item `r1`. -/
def demoRestaurants : List Place :=
  [{ id := "r1", hotelName := some "Hotel One", latitude := some 13, longitude := some 77 }]

/-- A six-item menu snapshot. -/
def wideMenu : List MenuItem :=
  [{ id := "1", productTitle := "Dosa", restaurantId := "r1" },
   { id := "2", productTitle := "Idli", restaurantId := "r1" },
   { id := "3", productTitle := "Vada", restaurantId := "r1" },
   { id := "4", productTitle := "Poori", restaurantId := "r1" },
   { id := "5", productTitle := "Upma", restaurantId := "r1" },
   { id := "6", productTitle := "Pongal", restaurantId := "r1" }]

/-- A well-formed model reply listing six resolvable candidates. -/
def sixReply : String :=
  "[\x7b\"id\":\"1\",\"relevance\":1\x7d,\x7b\"id\":\"2\",\"relevance\":1\x7d," ++
  "\x7b\"id\":\"3\",\"relevance\":1\x7d,\x7b\"id\":\"4\",\"relevance\":1\x7d," ++
  "\x7b\"id\":\"5\",\"relevance\":1\x7d,\x7b\"id\":\"6\",\"relevance\":1\x7d]"

/-- A well-formed two-candidate reply, emitted in ascending relevance. -/
def twoCandReply : String :=
  "[\x7b\"id\":\"2\",\"relevance\":0.5\x7d,\x7b\"id\":\"1\",\"relevance\":0.9\x7d]"

/-- The parsed form of `twoCandReply`. -/
def twoCandJson : Json :=
  .arr [.obj [("id", .str "2"), ("relevance", .num ⟨5, -1⟩)],
        .obj [("id", .str "1"), ("relevance", .num ⟨9, -1⟩)]]

/-- The candidates read off `twoCandJson`. -/
def twoCands : List Cand :=
  [{ id := some "2", relevance := some ⟨5, -1⟩ },
   { id := some "1", relevance := some ⟨9, -1⟩ }]

/-- A hotel record whose latitude is `0` (falsy). -/
def demoHotelZero : Place := { id := "h0", hotelName := some "Zero", latitude := some 0, longitude := some 2 }

/-- A hotel record with truthy coordinates. -/
def demoHotelA : Place := { id := "h1", hotelName := some "Alpha", latitude := some 1, longitude := some 2 }

/-- A hotels snapshot holding one excluded and one included record. -/
def demoHotels : List Place := [demoHotelZero, demoHotelA]

/-- A stub for the external distance computation. -/
def demoDist : Option String → Option String → ℚ → ℚ → Except Unit ℚ :=
  fun _ _ _ _ => .ok 1

/-- The response record `nearby-hotels` builds from `demoHotelA`. -/
def demoNearby : NearbyHotel :=
  { id := "h1", name := "Alpha", address := "Address not available",
    phone := "Phone not available", hotelType := "restaurant",
    latitude := some 1, longitude := some 2, distance := 1 }

/-- A restaurant whose latitude is `0`, and a menu item pointing at it. -/
def zeroPlace : Place := { id := "rz", latitude := some 0, longitude := some 3 }

/-- A menu item associated with `zeroPlace`. -/
def teaItem : MenuItem := { id := "9", productTitle := "Tea", restaurantId := "rz" }

/-! # Theorems

## Generic lemmas about the stable sort -/

theorem mem_insertKeep {α : Type} (keep : α → α → Bool) (x a : α) (l : List α) :
    a ∈ insertKeep keep x l ↔ a = x ∨ a ∈ l := by
  induction l with
  | nil => simp [insertKeep]
  | cons y ys ih =>
    by_cases h : keep y x = true
    · simp only [insertKeep, h, if_true, List.mem_cons, ih]
      tauto
    · simp only [insertKeep, h, if_false, Bool.false_eq_true, List.mem_cons]

theorem mem_stableSort {α : Type} (keep : α → α → Bool) (a : α) (l : List α) :
    a ∈ stableSort keep l ↔ a ∈ l := by
  induction l with
  | nil => simp [stableSort]
  | cons y ys ih => simp [stableSort, mem_insertKeep, ih]

theorem length_insertKeep {α : Type} (keep : α → α → Bool) (x : α) (l : List α) :
    (insertKeep keep x l).length = l.length + 1 := by
  induction l with
  | nil => simp [insertKeep]
  | cons y ys ih =>
    by_cases h : keep y x = true <;> simp [insertKeep, h, ih]

theorem length_stableSort {α : Type} (keep : α → α → Bool) (l : List α) :
    (stableSort keep l).length = l.length := by
  induction l with
  | nil => simp [stableSort]
  | cons y ys ih => simp [stableSort, length_insertKeep, ih]

theorem filter_insertKeep_neg {α : Type} (keep : α → α → Bool) (p : α → Bool)
    (x : α) (l : List α) (hx : p x = false) :
    (insertKeep keep x l).filter p = l.filter p := by
  induction l with
  | nil => simp [insertKeep, hx]
  | cons y ys ih =>
    by_cases h : keep y x = true
    · simp only [insertKeep, h, if_true, List.filter_cons, ih]
    · simp [insertKeep, h, List.filter_cons, hx]

theorem filter_insertKeep_pos {α : Type} (keep : α → α → Bool) (p : α → Bool)
    (x : α) (l : List α) (hx : p x = true)
    (hk : ∀ y, keep y x = true → p y = false) :
    (insertKeep keep x l).filter p = x :: l.filter p := by
  induction l with
  | nil => simp [insertKeep, hx]
  | cons y ys ih =>
    by_cases h : keep y x = true
    · have hy : p y = false := hk y h
      simp [insertKeep, h, List.filter_cons, hy, ih]
    · simp [insertKeep, h, List.filter_cons, hx]

theorem filter_stableSort {α : Type} (keep : α → α → Bool) (p : α → Bool)
    (l : List α) (hp : ∀ x y, p x = true → keep y x = true → p y = false) :
    (stableSort keep l).filter p = l.filter p := by
  induction l with
  | nil => simp [stableSort]
  | cons y ys ih =>
    by_cases h : p y = true
    · rw [stableSort, filter_insertKeep_pos keep p y _ h (fun z hz => hp y z h hz), ih,
        List.filter_cons_of_pos h]
    · have h' : p y = false := by
        cases hpy : p y
        · rfl
        · exact absurd hpy h
      rw [stableSort, filter_insertKeep_neg keep p y _ h', ih, List.filter_cons_of_neg]
      simp [h']

theorem pairwise_insertKeep {α : Type} (G : α → Prop) (R : α → α → Prop)
    (keep : α → α → Bool)
    (htrans : ∀ a b c, G b → R a b → R b c → R a c)
    (hkeep : ∀ y x, keep y x = true → R y x)
    (hnkeep : ∀ y x, G x → G y → keep y x = false → R x y)
    (x : α) (l : List α) (hGx : G x) (hGl : ∀ a ∈ l, G a)
    (hl : l.Pairwise R) : (insertKeep keep x l).Pairwise R := by
  induction l with
  | nil => simp [insertKeep]
  | cons y ys ih =>
    rcases List.pairwise_cons.mp hl with ⟨hy, hys⟩
    by_cases h : keep y x = true
    · rw [insertKeep, if_pos h]
      refine List.pairwise_cons.mpr ⟨?_, ih (fun a ha => hGl a (List.mem_cons_of_mem _ ha)) hys⟩
      intro z hz
      rcases (mem_insertKeep keep x z ys).mp hz with rfl | hzys
      · exact hkeep y z h
      · exact hy z hzys
    · have h' : keep y x = false := by
        cases hk : keep y x
        · rfl
        · exact absurd hk h
      rw [insertKeep, if_neg h]
      have hGy : G y := hGl y (List.mem_cons_self y ys)
      have hxy : R x y := hnkeep y x hGx hGy h'
      refine List.pairwise_cons.mpr ⟨?_, hl⟩
      intro z hz
      rcases List.mem_cons.mp hz with rfl | hzys
      · exact hxy
      · exact htrans x y z hGy hxy (hy z hzys)

theorem pairwise_stableSort {α : Type} (G : α → Prop) (R : α → α → Prop)
    (keep : α → α → Bool)
    (htrans : ∀ a b c, G b → R a b → R b c → R a c)
    (hkeep : ∀ y x, keep y x = true → R y x)
    (hnkeep : ∀ y x, G x → G y → keep y x = false → R x y)
    (l : List α) (hGl : ∀ a ∈ l, G a) : (stableSort keep l).Pairwise R := by
  induction l with
  | nil => simp [stableSort]
  | cons y ys ih =>
    rw [stableSort]
    refine pairwise_insertKeep G R keep htrans hkeep hnkeep y _
      (hGl y (List.mem_cons_self y ys)) ?_ (ih (fun a ha => hGl a (List.mem_cons_of_mem _ ha)))
    intro a ha
    exact hGl a (List.mem_cons_of_mem _ ((mem_stableSort keep a ys).mp ha))

/-! ## The comparator order through the rational valuation -/

theorem tenPow_eq_pow (n : Nat) : tenPow n = (10 : Int) ^ n := by
  induction n with
  | zero => simp [tenPow]
  | succ k ih => rw [tenPow, ih, pow_succ]; ring

theorem jnum_scaled (a : JNum) (k : Int) (hk : k ≤ a.e) :
    ((a.m * tenPow (a.e - k).toNat : Int) : ℚ) * (10 : ℚ) ^ k = a.val := by
  rw [tenPow_eq_pow]
  push_cast
  rw [← zpow_natCast (10 : ℚ) (a.e - k).toNat,
    show (((a.e - k).toNat : Int)) = a.e - k from Int.toNat_of_nonneg (by omega),
    mul_assoc, ← zpow_add₀ (show (10 : ℚ) ≠ 0 by norm_num), sub_add_cancel]
  rfl

theorem JNum.ltB_iff (a b : JNum) : (JNum.ltB a b = true) ↔ a.val < b.val := by
  unfold JNum.ltB
  set k := if a.e ≤ b.e then a.e else b.e with hk
  have hka : k ≤ a.e := by rw [hk]; split <;> omega
  have hkb : k ≤ b.e := by rw [hk]; split <;> omega
  rw [decide_eq_true_eq, ← jnum_scaled a k hka, ← jnum_scaled b k hkb,
    mul_lt_mul_right (zpow_pos (show (0 : ℚ) < 10 by norm_num) k), Int.cast_lt]

theorem JNum.ltB_false_iff (a b : JNum) : (JNum.ltB a b = false) ↔ b.val ≤ a.val := by
  constructor
  · intro h
    by_contra hc
    push_neg at hc
    rw [← JNum.ltB_iff] at hc
    rw [h] at hc
    exact Bool.false_ne_true hc
  · intro h
    cases hl : JNum.ltB a b
    · rfl
    · exact absurd ((JNum.ltB_iff a b).mp hl) (not_lt.mpr h)

theorem JNum.eqB_iff (a b : JNum) : (JNum.eqB a b = true) ↔ a.val = b.val := by
  unfold JNum.eqB
  rw [Bool.and_eq_true, Bool.not_eq_true', Bool.not_eq_true',
    JNum.ltB_false_iff, JNum.ltB_false_iff]
  constructor
  · rintro ⟨h1, h2⟩
    exact le_antisymm h2 h1
  · intro h
    exact ⟨h.ge, h.le⟩

theorem pairwise_relGE_stableSort (items : List Cand)
    (h : ∀ c ∈ items, (c.relevance).isSome) :
    (stableSort relKeep items).Pairwise relGE := by
  apply pairwise_stableSort (fun c => (c.relevance).isSome) relGE relKeep
  · rintro a b c hb hab hbc x z hx hz
    rcases Option.isSome_iff_exists.mp hb with ⟨yb, hyb⟩
    exact le_trans (hbc yb z hyb hz) (hab x yb hx hyb)
  · intro y x hk p q hyp hxq
    unfold relKeep at hk
    rw [hyp, hxq] at hk
    exact ((JNum.ltB_iff q p).mp hk).le
  · intro y x hx hy hk p q hxp hyq
    unfold relKeep at hk
    rw [hyq, hxp] at hk
    exact (JNum.ltB_false_iff p q).mp hk
  · exact h

theorem filter_relEq_stableSort (items : List Cand) (r : JNum) :
    (stableSort relKeep items).filter (candRelEqB r) = items.filter (candRelEqB r) := by
  apply filter_stableSort
  intro x y hx hk
  cases hxr : x.relevance with
  | none => simp [candRelEqB, hxr] at hx
  | some p =>
    cases hyr : y.relevance with
    | none => simp [candRelEqB, hyr]
    | some q =>
      simp only [candRelEqB, hxr] at hx
      simp only [relKeep, hxr, hyr] at hk
      simp only [candRelEqB, hyr]
      cases hq : JNum.eqB q r
      · rfl
      · exfalso
        have hpr : JNum.val p = JNum.val r := (JNum.eqB_iff p r).mp hx
        have hqr : JNum.val q = JNum.val r := (JNum.eqB_iff q r).mp hq
        have hlt : JNum.val p < JNum.val q := (JNum.ltB_iff p q).mp hk
        rw [hpr, hqr] at hlt
        exact lt_irrefl _ hlt

/-! ## String-level lemmas about the fence handling -/

theorem tagLower_cons :
    tagLower = btick :: btick :: btick :: 'j' :: 's' :: 'o' :: 'n' :: '\n' :: [] := rfl

theorem tagUpper_cons :
    tagUpper = btick :: btick :: btick :: 'J' :: 'S' :: 'O' :: 'N' :: '\n' :: [] := rfl

theorem closeFence_cons : closeFence = '\n' :: btick :: btick :: btick :: [] := rfl

theorem fence3_cons : fence3 = btick :: btick :: btick :: [] := rfl

theorem string_mk_data (s : String) : String.mk s.data = s := by
  obtain ⟨d⟩ := s
  rfl

theorem isPre_false_head (a c : Char) (as r : List Char) (h : a ≠ c) :
    isPre (a :: as) (c :: r) = false := by
  have hb : (a == c) = false := by
    cases hac : a == c
    · rfl
    · exact absurd (eq_of_beq hac) h
  simp [isPre, hb]

theorem isPre_false_second (a b : Char) (as : List Char) (c d : Char) (r : List Char)
    (h : b ≠ d) : isPre (a :: b :: as) (c :: d :: r) = false := by
  have hb : (b == d) = false := by
    cases hbd : b == d
    · rfl
    · exact absurd (eq_of_beq hbd) h
  simp [isPre, hb]

theorem isPre_append_self (p r : List Char) : isPre p (p ++ r) = true := by
  induction p with
  | nil => simp [isPre]
  | cons a as ih => simp [isPre, ih]

theorem lengthDropWhileLe (p : Char → Bool) (l : List Char) :
    (l.dropWhile p).length ≤ l.length := by
  induction l with
  | nil => simp
  | cons c l2 ih =>
    rw [List.dropWhile_cons]
    by_cases h : p c = true
    · rw [if_pos h]
      exact Nat.le_succ_of_le ih
    · rw [if_neg h]

theorem dropWhile_eq_self_append (p : Char → Bool) (l r : List Char)
    (hl : l.dropWhile p = l) (hne : l ≠ []) :
    (l ++ r).dropWhile p = l ++ r := by
  cases l with
  | nil => exact absurd rfl hne
  | cons c l2 =>
    have hpc : p c = false := by
      cases hpc : p c
      · rfl
      · exfalso
        rw [List.dropWhile_cons, hpc, if_pos rfl] at hl
        have hlen := congrArg List.length hl
        have hle := lengthDropWhileLe p l2
        simp at hlen
        omega
    rw [List.cons_append, List.dropWhile_cons, hpc]
    simp

theorem dropWhile_reverse_of_dropTrailing (p : Char → Bool) (l : List Char)
    (hl : dropTrailing p l = l) : l.reverse.dropWhile p = l.reverse := by
  unfold dropTrailing at hl
  have h2 := congrArg List.reverse hl
  rw [List.reverse_reverse] at h2
  exact h2

theorem dropTrailing_self_prepend (p : Char → Bool) (l r : List Char)
    (hl : dropTrailing p l = l) (hne : l ≠ []) :
    dropTrailing p (r ++ l) = r ++ l := by
  unfold dropTrailing
  rw [List.reverse_append,
    dropWhile_eq_self_append p l.reverse r.reverse
      (dropWhile_reverse_of_dropTrailing p l hl) (by simpa using hne),
    ← List.reverse_append, List.reverse_reverse]

theorem dropWhile_all_prefix (p : Char → Bool) (w x : List Char)
    (hw : ∀ c ∈ w, p c = true) : (w ++ x).dropWhile p = x.dropWhile p := by
  induction w with
  | nil => simp
  | cons c w2 ih =>
    rw [List.cons_append, List.dropWhile_cons, if_pos (hw c (List.mem_cons_self c w2))]
    exact ih (fun d hd => hw d (List.mem_cons_of_mem _ hd))

theorem dropTrailing_append_ws (l w : List Char) (hw : ∀ c ∈ w, jsWs c = true)
    (hl : dropTrailing jsWs l = l) : dropTrailing jsWs (l ++ w) = l := by
  unfold dropTrailing
  rw [List.reverse_append,
    dropWhile_all_prefix _ _ _ (fun c hc => hw c (List.mem_reverse.mp hc)),
    dropWhile_reverse_of_dropTrailing jsWs l hl, List.reverse_reverse]

theorem scanRemoveF_nil (f : Nat) : scanRemoveF f [] = [] := by cases f <;> rfl

theorem scanRemoveF_cons_eq (f : Nat) (c : Char) (rest : List Char) :
    scanRemoveF (f + 1) (c :: rest) =
      (if isPre tagLower (c :: rest) then scanRemoveF f ((c :: rest).drop 8)
       else if isPre tagUpper (c :: rest) then scanRemoveF f ((c :: rest).drop 8)
       else if isPre closeFence (c :: rest) then scanRemoveF f ((c :: rest).drop 4)
       else c :: scanRemoveF f rest) := rfl

theorem scanRemoveF_cons_step (f : Nat) (c : Char) (rest : List Char)
    (h1 : isPre tagLower (c :: rest) = false)
    (h2 : isPre tagUpper (c :: rest) = false)
    (h3 : isPre closeFence (c :: rest) = false) :
    scanRemoveF (f + 1) (c :: rest) = c :: scanRemoveF f rest := by
  rw [scanRemoveF_cons_eq, if_neg (by simp [h1]), if_neg (by simp [h2]),
    if_neg (by simp [h3])]

theorem scanRemoveF_tag_step (f : Nat) (rest : List Char) :
    scanRemoveF (f + 1) (tagLower ++ rest) = scanRemoveF f rest := rfl

theorem scanRemove_fenceFree (l : List Char) : ∀ f : Nat, l.length + 1 ≤ f →
    (∀ c ∈ l, c ≠ btick) → scanRemoveF f (l ++ closeFence) = l := by
  induction l with
  | nil =>
    intro f hf _
    cases f with
    | zero => omega
    | succ f2 =>
      rw [List.nil_append, show scanRemoveF (f2 + 1) closeFence = scanRemoveF f2 [] from rfl,
        scanRemoveF_nil]
  | cons c l2 ih =>
    intro f hf hnb
    cases f with
    | zero => simp at hf
    | succ f2 =>
      have hc : c ≠ btick := hnb c (List.mem_cons_self c l2)
      have h1 : isPre tagLower (c :: (l2 ++ closeFence)) = false := by
        rw [tagLower_cons]
        exact isPre_false_head _ _ _ _ (fun he => hc he.symm)
      have h2 : isPre tagUpper (c :: (l2 ++ closeFence)) = false := by
        rw [tagUpper_cons]
        exact isPre_false_head _ _ _ _ (fun he => hc he.symm)
      have h3 : isPre closeFence (c :: (l2 ++ closeFence)) = false := by
        cases l2 with
        | nil =>
          rw [List.nil_append, closeFence_cons]
          exact isPre_false_second _ _ _ _ _ _ (by decide)
        | cons d l3 =>
          have hd : d ≠ btick := hnb d (List.mem_cons_of_mem _ (List.mem_cons_self d l3))
          rw [List.cons_append, closeFence_cons]
          exact isPre_false_second _ _ _ _ _ _ (fun he => hd he.symm)
      rw [List.cons_append, scanRemoveF_cons_step f2 c _ h1 h2 h3,
        ih f2 (by simp at hf; omega) (fun a ha => hnb a (List.mem_cons_of_mem _ ha))]

theorem wrapJson_data (t : String) :
    (wrapJson t).data = tagLower ++ (t.data ++ closeFence) := by
  simp [wrapJson, tagLower, closeFence]

theorem wrapPlain_data (t : String) :
    (wrapPlain t).data = btick :: btick :: btick :: '\n' :: (t.data ++ closeFence) := by
  have h := congrArg String.data (show wrapPlain t = "```\n" ++ (t ++ "\n```") from by
    unfold wrapPlain
    rw [String.append_assoc])
  rw [h]
  rfl

theorem scanRemove_bbbn (f : Nat) (X : List Char) :
    scanRemoveF (f + 1) (btick :: btick :: btick :: '\n' :: X)
      = btick :: scanRemoveF f (btick :: btick :: '\n' :: X) := rfl

theorem scanRemove_bbn (f : Nat) (X : List Char) :
    scanRemoveF (f + 1) (btick :: btick :: '\n' :: X)
      = btick :: scanRemoveF f (btick :: '\n' :: X) := rfl

theorem scanRemove_bn (f : Nat) (X : List Char) :
    scanRemoveF (f + 1) (btick :: '\n' :: X)
      = btick :: scanRemoveF f ('\n' :: X) := rfl

theorem cleanedContent_wrapJson (t : String)
    (hnb : ∀ c ∈ t.data, c ≠ btick)
    (hlead : t.data.dropWhile jsWs = t.data)
    (htrail : dropTrailing jsWs t.data = t.data) :
    cleanedContent (wrapJson t) = t := by
  unfold cleanedContent
  rw [wrapJson_data]
  have hlen : (tagLower ++ (t.data ++ closeFence)).length = (t.data.length + 11) + 1 := by
    simp [tagLower_cons, closeFence_cons]
  rw [hlen, scanRemoveF_tag_step, scanRemove_fenceFree t.data _ (by omega) hnb]
  unfold trimJs
  rw [hlead, htrail, string_mk_data]

theorem cleanedContent_wrapPlain (t : String)
    (hnb : ∀ c ∈ t.data, c ≠ btick)
    (hne : t.data ≠ [])
    (hlead : t.data.dropWhile jsWs = t.data)
    (htrail : dropTrailing jsWs t.data = t.data) :
    cleanedContent (wrapPlain t) = String.mk (btick :: btick :: btick :: '\n' :: t.data) := by
  unfold cleanedContent
  rw [wrapPlain_data]
  have h3 : isPre closeFence ('\n' :: (t.data ++ closeFence)) = false := by
    rw [closeFence_cons]
    cases ht : t.data with
    | nil => exact absurd ht hne
    | cons d l3 =>
      have hd : d ≠ btick := hnb d (by rw [ht]; exact List.mem_cons_self d l3)
      exact isPre_false_second _ _ _ _ _ _ (fun he => hd he.symm)
  have hlen : (btick :: btick :: btick :: '\n' :: (t.data ++ closeFence)).length
      = ((((t.data.length + 4) + 1) + 1) + 1) + 1 := by
    simp [closeFence_cons]
  rw [hlen, scanRemove_bbbn, scanRemove_bbn, scanRemove_bn,
    scanRemoveF_cons_step _ '\n' (t.data ++ closeFence) rfl rfl h3,
    scanRemove_fenceFree t.data _ (by omega) hnb]
  unfold trimJs
  rw [List.dropWhile_cons, if_neg (by simp [show jsWs btick = false from rfl])]
  have hdt := dropTrailing_self_prepend jsWs t.data (btick :: btick :: btick :: '\n' :: []) htrail hne
  simp only [List.cons_append, List.nil_append] at hdt
  rw [hdt]

theorem fencedAttempt_tagged (R : List Char) :
    fencedAttempt (btick :: btick :: btick :: 'j' :: 's' :: 'o' :: 'n' :: '\n' :: R)
      = (takeToFence (('\n' :: R).dropWhile jsWs)).map (dropTrailing jsWs) := rfl

theorem fencedAttempt_untagged (R : List Char) :
    fencedAttempt (btick :: btick :: btick :: '\n' :: R)
      = (takeToFence (('\n' :: R).dropWhile jsWs)).map (dropTrailing jsWs) := rfl

theorem takeToFence_fenceFree (l : List Char) (hnb : ∀ c ∈ l, c ≠ btick) :
    takeToFence (l ++ closeFence) = some (l ++ '\n' :: []) := by
  induction l with
  | nil => rfl
  | cons c l2 ih =>
    have hfc : isPre fence3 (c :: (l2 ++ closeFence)) = false := by
      rw [fence3_cons]
      exact isPre_false_head _ _ _ _ (fun he => (hnb c (List.mem_cons_self c l2)) he.symm)
    rw [List.cons_append,
      show takeToFence (c :: (l2 ++ closeFence)) =
        (if isPre fence3 (c :: (l2 ++ closeFence)) then some []
         else (takeToFence (l2 ++ closeFence)).map (fun l => c :: l)) from rfl,
      if_neg (by simp [hfc]), ih (fun a ha => hnb a (List.mem_cons_of_mem _ ha))]
    rfl

theorem fencedCapture_cons_eq (c : Char) (rest : List Char) :
    fencedCapture (c :: rest) =
      (match fencedAttempt (c :: rest) with
       | some captured => some captured
       | none => fencedCapture rest) := rfl

theorem fencedCapture_wrapJson (t : String)
    (hnb : ∀ c ∈ t.data, c ≠ btick)
    (hne : t.data ≠ [])
    (hlead : t.data.dropWhile jsWs = t.data)
    (htrail : dropTrailing jsWs t.data = t.data) :
    fencedCapture (wrapJson t).data = some t.data := by
  have hdata : (wrapJson t).data
      = btick :: btick :: btick :: 'j' :: 's' :: 'o' :: 'n' :: '\n' :: (t.data ++ closeFence) := by
    rw [wrapJson_data, tagLower_cons]
    simp
  have hbody : ('\n' :: (t.data ++ closeFence)).dropWhile jsWs = t.data ++ closeFence := by
    rw [List.dropWhile_cons, if_pos (by rfl)]
    exact dropWhile_eq_self_append jsWs t.data closeFence hlead hne
  rw [hdata, fencedCapture_cons_eq, fencedAttempt_tagged, hbody,
    takeToFence_fenceFree t.data hnb]
  simp only [Option.map]
  rw [dropTrailing_append_ws t.data ('\n' :: [])
    (by intro c hc; simp at hc; rw [hc]; rfl) htrail]

theorem fencedCapture_wrapPlain (t : String)
    (hnb : ∀ c ∈ t.data, c ≠ btick)
    (hne : t.data ≠ [])
    (hlead : t.data.dropWhile jsWs = t.data)
    (htrail : dropTrailing jsWs t.data = t.data) :
    fencedCapture (wrapPlain t).data = some t.data := by
  have hbody : ('\n' :: (t.data ++ closeFence)).dropWhile jsWs = t.data ++ closeFence := by
    rw [List.dropWhile_cons, if_pos (by rfl)]
    exact dropWhile_eq_self_append jsWs t.data closeFence hlead hne
  rw [wrapPlain_data, fencedCapture_cons_eq, fencedAttempt_untagged, hbody,
    takeToFence_fenceFree t.data hnb]
  simp only [Option.map]
  rw [dropTrailing_append_ws t.data ('\n' :: [])
    (by intro c hc; simp at hc; rw [hc]; rfl) htrail]

theorem jsonParse_of_data_btick (s : String) (r : List Char) (h : s.data = btick :: r) :
    jsonParse s = none := by
  unfold jsonParse
  rw [h]
  rfl

theorem parseContentV2_wrapJson (t : String) (v : Json)
    (hnb : ∀ c ∈ t.data, c ≠ btick)
    (hne : t.data ≠ [])
    (hlead : t.data.dropWhile jsWs = t.data)
    (htrail : dropTrailing jsWs t.data = t.data)
    (hparse : jsonParse t = some v) :
    parseContentV2 (wrapJson t) = .ok v := by
  have h1 : jsonParse (wrapJson t) = none :=
    jsonParse_of_data_btick (wrapJson t)
      (btick :: btick :: 'j' :: 's' :: 'o' :: 'n' :: '\n' :: (t.data ++ closeFence))
      (by rw [wrapJson_data, tagLower_cons]; simp)
  have h2 : fencedCapture (wrapJson t).data = some t.data :=
    fencedCapture_wrapJson t hnb hne hlead htrail
  simp [parseContentV2, h1, h2, string_mk_data, hparse]

theorem parseContentV2_wrapPlain (t : String) (v : Json)
    (hnb : ∀ c ∈ t.data, c ≠ btick)
    (hne : t.data ≠ [])
    (hlead : t.data.dropWhile jsWs = t.data)
    (htrail : dropTrailing jsWs t.data = t.data)
    (hparse : jsonParse t = some v) :
    parseContentV2 (wrapPlain t) = .ok v := by
  have h1 : jsonParse (wrapPlain t) = none :=
    jsonParse_of_data_btick (wrapPlain t)
      (btick :: btick :: '\n' :: (t.data ++ closeFence)) (by rw [wrapPlain_data])
  have h2 : fencedCapture (wrapPlain t).data = some t.data :=
    fencedCapture_wrapPlain t hnb hne hlead htrail
  simp [parseContentV2, h1, h2, string_mk_data, hparse]

/-! ## Claim C4 -/

/-- C4, counterexample: the claim says extraction commutes with both fence
styles, but for the untagged fenced wrapping of the JSON array text `[1]`
the current variant's extraction step
(`content.replace(/\x60\x60\x60(json|JSON)\n|\n\x60\x60\x60/g, '').trim()`
followed by `JSON.parse`) fails — the replacement removes only the closing
fence, the leading untagged fence survives, and the parse returns no array —
while parsing `[1]` directly succeeds. -/
theorem C4_counterexample :
    jsonParse (cleanedContent (wrapPlain "[1]")) = none
      ∧ jsonParse "[1]" = some (Json.arr [Json.num ⟨1, 0⟩]) :=
  ⟨rfl, rfl⟩

/-- C4, amended: for every JSON array text `t` (no fence characters of its
own, no surrounding whitespace, parsing to `v`):  the current variant's
extraction yields the same parsed value as parsing `t` directly for the
`json`-tagged fence style but fails to parse for the untagged style; the
older variant's two-stage extraction (direct parse, then fenced-block
match) yields the same parsed value for both fence styles. -/
theorem C4_amended (t : String) (v : Json)
    (hnb : ∀ c ∈ t.data, c ≠ btick)
    (hne : t.data ≠ [])
    (hlead : t.data.dropWhile jsWs = t.data)
    (htrail : dropTrailing jsWs t.data = t.data)
    (hparse : jsonParse t = some v) :
    jsonParse (cleanedContent (wrapJson t)) = some v
      ∧ jsonParse (cleanedContent (wrapPlain t)) = none
      ∧ parseContentV2 (wrapJson t) = .ok v
      ∧ parseContentV2 (wrapPlain t) = .ok v := by
  refine ⟨?_, ?_, ?_, ?_⟩
  · rw [cleanedContent_wrapJson t hnb hlead htrail, hparse]
  · rw [cleanedContent_wrapPlain t hnb hne hlead htrail]
    exact jsonParse_of_data_btick _ _ rfl
  · exact parseContentV2_wrapJson t v hnb hne hlead htrail hparse
  · exact parseContentV2_wrapPlain t v hnb hne hlead htrail hparse

/-- C4, witness: the amended claim applied at `t = "[1]"`. -/
theorem C4_witness :
    jsonParse (cleanedContent (wrapJson "[1]")) = some (Json.arr [Json.num ⟨1, 0⟩])
      ∧ parseContentV2 (wrapPlain "[1]") = .ok (Json.arr [Json.num ⟨1, 0⟩]) := by
  have h := C4_amended "[1]" (Json.arr [Json.num ⟨1, 0⟩])
    (by decide) (by decide) (by decide) (by decide) rfl
  exact ⟨h.1, h.2.2.2⟩

/-! ## Case analysis of the resolver's successful returns -/

theorem getRecs_ok_iff (query : Option String) (menu : List MenuItem)
    (mealType : Option String) (modelReply : Except String String)
    (recs : List MenuItem) :
    getPersonalizedRecommendations query menu mealType modelReply = .ok recs ↔
      tryGetRecs query menu modelReply = .ok recs := by
  unfold getPersonalizedRecommendations
  cases h : tryGetRecs query menu modelReply with
  | ok r => simp
  | error e => simp

theorem fallbackRecs_ok_cases (menu : List MenuItem)
    (modelReply : Except String String) (recs : List MenuItem)
    (h : fallbackRecs menu modelReply = .ok recs) :
    ∃ content parsed items, modelReply = .ok content ∧
      jsonParse (cleanedContent content) = some parsed ∧
      candsOf parsed = .ok items ∧ recs = resolveCands menu items := by
  cases modelReply with
  | error e => simp [fallbackRecs] at h
  | ok content =>
    rw [show fallbackRecs menu (Except.ok content)
        = (match jsonParse (cleanedContent content) with
           | none => Except.error JsErr.syntaxError
           | some parsed =>
             match candsOf parsed with
             | Except.error e => Except.error e
             | Except.ok items => Except.ok (resolveCands menu items)) from rfl] at h
    split at h
    · simp at h
    · split at h
      · simp at h
      · simp only [Except.ok.injEq] at h
        rename_i x1 parsed hp x2 items hc
        exact ⟨content, parsed, items, rfl, hp, hc, h.symm⟩

theorem tryGetRecs_ok_cases (query : Option String) (menu : List MenuItem)
    (modelReply : Except String String) (recs : List MenuItem)
    (h : tryGetRecs query menu modelReply = .ok recs) :
    recs = (menu.filter (exactMatch query)).take 5 ∨
      ∃ content parsed items, modelReply = .ok content ∧
        jsonParse (cleanedContent content) = some parsed ∧
        candsOf parsed = .ok items ∧ recs = resolveCands menu items := by
  unfold tryGetRecs at h
  by_cases hq : jsTruthyS query = true
  · rw [if_pos hq] at h
    simp only [] at h
    by_cases hm : 0 < (menu.filter (exactMatch query)).length
    · rw [if_pos hm] at h
      simp at h
      exact Or.inl h.symm
    · rw [if_neg hm] at h
      exact Or.inr (fallbackRecs_ok_cases menu modelReply recs h)
  · rw [if_neg hq] at h
    exact Or.inr (fallbackRecs_ok_cases menu modelReply recs h)

/-! ## Claim C1 -/

/-- C1, counterexample: the claim bounds the resolver's output by 5 on the
fallback path too, but the fallback (lines 94-102) applies no `.slice(0, 5)`:
with a six-item menu and a well-formed model reply listing six resolvable
candidates, the resolver returns all six items. -/
theorem C1_counterexample :
    getPersonalizedRecommendations none wideMenu none (.ok sixReply) = .ok wideMenu
      ∧ ¬ (wideMenu.length ≤ 5) :=
  ⟨by decide, by decide⟩

/-- C1, amended: the fast path returns at most 5 items, but the fallback
path only bounds its output by the number of candidates in the parsed model
reply (`numCandidates`); so every successful return has length at most
`max 5 (numCandidates modelReply)`, and at most 5 only when the model
returns at most 5 candidates. -/
theorem C1_amended (query : Option String) (menu : List MenuItem)
    (mealType : Option String) (modelReply : Except String String)
    (recs : List MenuItem)
    (h : getPersonalizedRecommendations query menu mealType modelReply = .ok recs) :
    recs.length ≤ max 5 (numCandidates modelReply) := by
  rcases tryGetRecs_ok_cases query menu modelReply recs
      ((getRecs_ok_iff query menu mealType modelReply recs).mp h) with
    hfast | ⟨content, parsed, items, hcont, hp, hc, hres⟩
  · rw [hfast]
    exact le_trans (List.length_take_le _ _) (le_max_left _ _)
  · rw [hres]
    unfold resolveCands
    have h1 := List.length_filterMap_le
      (fun item => menu.find? (fun mi => item.id == some mi.id)) (stableSort relKeep items)
    rw [length_stableSort] at h1
    have h2 : numCandidates modelReply = items.length := by
      rw [hcont]
      simp [numCandidates, hp, hc]
    rw [h2]
    exact le_trans h1 (le_max_right _ _)

/-- C1, witness: the amended bound applied to a two-candidate reply. -/
theorem C1_witness :
    ([demoBurger, demoWrapItem] : List MenuItem).length
      ≤ max 5 (numCandidates (.ok twoCandReply)) :=
  C1_amended none demoMenu none (.ok twoCandReply) [demoBurger, demoWrapItem] (by decide)

/-! ## Claim C2 -/

/-- C2, code bug: the resolver is specified to fail closed (catch, log,
return `[]`), and its `catch` block indeed ends in `return []` — but the
block first logs `cleanedContent` (line 105), a `const` declared inside the
`try` block and out of scope in the `catch` block, so the handler itself
throws `ReferenceError: cleanedContent is not defined` and the resolver
raises to its caller instead of returning the empty sequence.  Evaluated
here on a malformed (non-JSON) reply and on a failed model call. -/
theorem C2_code_bug :
    getPersonalizedRecommendations none demoMenu (some "breakfast") (.ok "oops")
        = .error (.referenceError "cleanedContent")
      ∧ getPersonalizedRecommendations (some "pizza") demoMenu none (.error "network failure")
        = .error (.referenceError "cleanedContent") :=
  ⟨rfl, rfl⟩

/-! ## Claim C3 -/

/-- C3, code bug: when `lat` and `lon` are supplied and a resolved
recommendation's restaurant has truthy coordinates, the endpoint calls
`calculateDistance(...)` (line 166), a function defined nowhere in the
repository; the resulting `ReferenceError` is caught by the route's
`catch`, so the endpoint answers 500 instead of attaching a distance and
responding successfully.  The same request without `lat`/`lon` succeeds,
isolating the enrichment step as the failure. -/
theorem C3_code_bug :
    personalizedRecommendationsRoute (some "burger") none (some "12.9") (some "77.6")
        (.ok demoMenu) (.ok demoRestaurants) (.ok "unused")
        = .err "Failed to fetch personalized recommendations"
      ∧ personalizedRecommendationsRoute (some "burger") none none none
        (.ok demoMenu) (.ok demoRestaurants) (.ok "unused") = .ok [demoBurger] :=
  ⟨by decide, by decide⟩

/-! ## Claim C5 -/

/-- C5: for every non-empty query whose lowercase form occurs in some menu
title (lowercased), the resolver returns exactly the first up-to-5 matching
items in the menu's original order — `filter` keeps the store order and
`take 5` truncates — and the result is independent of the model reply, so
the external model is never consulted on this path. -/
theorem C5_fast_path (q : String) (menu : List MenuItem) (mealType : Option String)
    (r1 r2 : Except String String) (hq : q ≠ "")
    (hm : 0 < (menu.filter (exactMatch (some q))).length) :
    getPersonalizedRecommendations (some q) menu mealType r1
        = .ok ((menu.filter (exactMatch (some q))).take 5)
      ∧ getPersonalizedRecommendations (some q) menu mealType r1
        = getPersonalizedRecommendations (some q) menu mealType r2 := by
  have hq2 : jsTruthyS (some q) = true := by simp [jsTruthyS, hq]
  have h1 : ∀ r : Except String String,
      getPersonalizedRecommendations (some q) menu mealType r
        = .ok ((menu.filter (exactMatch (some q))).take 5) := by
    intro r
    unfold getPersonalizedRecommendations tryGetRecs
    rw [if_pos hq2]
    simp [hm]
  exact ⟨h1 r1, (h1 r1).trans (h1 r2).symm⟩

/-- C5, witness: the spec §8 example — query `"burger"` against the demo
menu matches `Veg Burger` on the fast path, whatever the model reply. -/
theorem C5_witness :
    getPersonalizedRecommendations (some "burger") demoMenu none (.ok "zzz")
      = .ok ((demoMenu.filter (exactMatch (some "burger"))).take 5) :=
  (C5_fast_path "burger" demoMenu none (.ok "zzz") (.error "x")
    (by decide) (by decide)).1

/-! ## Claim C6 -/

/-- C6: on the fallback path, for every parsed candidate array (with
numeric relevances), the resolver's output is exactly the candidates
sorted by relevance descending with a stable sort, resolved against the
menu with unmatched identifiers dropped: (1) the output equals the sorted,
resolved, filtered sequence; (2) the sorted sequence is ordered by
descending relevance; (3) the sort is stable — for every relevance value,
the candidates carrying it keep the model's emitted order. -/
theorem C6_fallback_order (menu : List MenuItem) (mealType : Option String)
    (content : String) (parsed : Json) (items : List Cand)
    (h1 : jsonParse (cleanedContent content) = some parsed)
    (h2 : candsOf parsed = .ok items)
    (h3 : ∀ c ∈ items, (c.relevance).isSome) :
    getPersonalizedRecommendations none menu mealType (.ok content)
        = .ok ((stableSort relKeep items).filterMap
            (fun c => menu.find? (fun mi => c.id == some mi.id)))
      ∧ (stableSort relKeep items).Pairwise relGE
      ∧ ∀ r : JNum, (stableSort relKeep items).filter (candRelEqB r)
          = items.filter (candRelEqB r) := by
  refine ⟨?_, pairwise_relGE_stableSort items h3, fun r => filter_relEq_stableSort items r⟩
  unfold getPersonalizedRecommendations tryGetRecs fallbackRecs
  simp [jsTruthyS, h1, h2, resolveCands]

/-- C6, witness: a reply emitting two candidates in ascending relevance is
returned sorted descending (id `"1"` with relevance 0.9 before id `"2"`
with relevance 0.5). -/
theorem C6_witness :
    getPersonalizedRecommendations none demoMenu none (.ok twoCandReply)
      = .ok ((stableSort relKeep twoCands).filterMap
          (fun c => demoMenu.find? (fun mi => c.id == some mi.id))) :=
  (C6_fallback_order demoMenu none twoCandReply twoCandJson twoCands rfl rfl (by decide)).1

/-! ## Claim C7 -/

/-- C7, counterexample: the claim promises a 200 `{recommendations}`
response whenever at least one of `message`/`mealType` is present and the
store fetch succeeds; but the check is truthiness, not presence — a body
carrying `message: ""` (present but empty) with a successful fetch is
rejected with the 500 validation error. -/
theorem C7_counterexample :
    chatRoute (some "") none (.ok demoMenu) (.ok "[]")
      = .err "An error occurred while processing the chat."
          "Message or meal type is required" := rfl

/-- C7, amended: the endpoint requires at least one of the two body fields
to be truthy (non-empty): when both are absent or empty it responds with
the error payload (an error message plus a `details` field); when at least
one is non-empty, the store fetch succeeds and the resolver returns
(rather than throwing — see C2), it responds 200 with the recommendation
list. -/
theorem C7_amended (message mealType : Option String)
    (menuFetch : Except String (List MenuItem)) (modelReply : Except String String) :
    (jsTruthyS message = false ∧ jsTruthyS mealType = false →
      chatRoute message mealType menuFetch modelReply
        = .err "An error occurred while processing the chat."
            "Message or meal type is required")
    ∧ (∀ menu recs, (jsTruthyS message = true ∨ jsTruthyS mealType = true) →
        menuFetch = .ok menu →
        getPersonalizedRecommendations message menu mealType modelReply = .ok recs →
        chatRoute message mealType menuFetch modelReply = .ok recs) := by
  constructor
  · rintro ⟨h1, h2⟩
    unfold chatRoute
    rw [h1, h2]
    simp
  · rintro menu recs hor hfetch hres
    unfold chatRoute
    have hcond : (!jsTruthyS message && !jsTruthyS mealType) = false := by
      rcases hor with h | h <;> simp [h]
    rw [hcond, hfetch]
    simp [hres]

/-- C7, witness: a non-empty message with a successful fetch and a
successful resolution answers 200 with the resolved list. -/
theorem C7_witness :
    chatRoute (some "hi") none (.ok demoMenu) (.ok "[]") = .ok [demoWrapItem] :=
  (C7_amended (some "hi") none (.ok demoMenu) (.ok "[]")).2 demoMenu [demoWrapItem]
    (Or.inl (by decide)) rfl (by decide)

/-! ## Claim C8 -/

/-- C8: the geographic distance (modelled from the spec's haversine
contract, since the repository delegates to the external `geolib` library)
is symmetric in its two coordinate pairs and zero on identical points. -/
theorem C8_distance_symm_zero (lat1 lon1 lat2 lon2 : ℝ) :
    distanceKm lat1 lon1 lat2 lon2 = distanceKm lat2 lon2 lat1 lon1
      ∧ distanceKm lat1 lon1 lat1 lon1 = 0 := by
  constructor
  · unfold distanceKm
    have hh : ∀ x y : ℝ, hav (x - y) = hav (y - x) := by
      intro x y
      unfold hav
      rw [show (x - y) / 2 = -((y - x) / 2) by ring, Real.sin_neg]
      ring
    rw [hh (toRad lat2) (toRad lat1), hh (toRad lon2) (toRad lon1),
      mul_comm (Real.cos (toRad lat1))]
  · unfold distanceKm
    simp [hav]

/-! ## Claim C9 -/

/-- C9: every item the resolver returns is an element of the menu snapshot
it was given — the fast path filters the menu, and the fallback path
resolves each candidate by `menu.find(...)`, so nothing outside the menu
can be emitted. -/
theorem C9_output_subset_menu (query : Option String) (menu : List MenuItem)
    (mealType : Option String) (modelReply : Except String String)
    (recs : List MenuItem) (x : MenuItem)
    (h : getPersonalizedRecommendations query menu mealType modelReply = .ok recs)
    (hx : x ∈ recs) : x ∈ menu := by
  rcases tryGetRecs_ok_cases query menu modelReply recs
      ((getRecs_ok_iff query menu mealType modelReply recs).mp h) with
    hfast | ⟨content, parsed, items, hcont, hp, hc, hres⟩
  · rw [hfast] at hx
    exact List.mem_of_mem_filter (List.mem_of_mem_take hx)
  · rw [hres] at hx
    unfold resolveCands at hx
    rcases List.mem_filterMap.mp hx with ⟨c, hcmem, hfind⟩
    exact List.mem_of_find?_eq_some hfind

/-- C9, witness: the fast-path run on the demo menu only emits menu
elements. -/
theorem C9_witness : demoBurger ∈ demoMenu :=
  C9_output_subset_menu (some "burger") demoMenu none (.ok "zzz") [demoBurger]
    demoBurger (by decide) (by decide)

/-! ## Claim C10 -/

theorem nearbyRecord_coords (dist : Option String → Option String → ℚ → ℚ → Except Unit ℚ)
    (latitude longitude : Option String) (h : Place) (r : NearbyHotel) :
    nearbyRecord dist latitude longitude h = some r →
      r.latitude = h.latitude ∧ r.longitude = h.longitude := by
  unfold nearbyRecord
  split
  · intro hr
    simp at hr
  · intro hr
    simp only [Option.some.injEq] at hr
    rw [← hr]
    exact ⟨rfl, rfl⟩

/-- C10: coordinate fields equal to `0` are treated as absent, because
both endpoints use truthiness rather than presence checks.  (1) every
record `GET /api/nearby-hotels` returns has truthy (non-zero, non-absent)
coordinates, so a place with a zero coordinate is excluded; (2) the
recommendations endpoint's enrichment step leaves a recommendation
untouched (no distance attached) when its restaurant has a zero
coordinate. -/
theorem C10_zero_coordinates :
    (∀ (dist : Option String → Option String → ℚ → ℚ → Except Unit ℚ)
       (latitude longitude : Option String) (hotels : List Place)
       (res : List NearbyHotel) (r : NearbyHotel),
        nearbyHotelsRoute dist latitude longitude (.ok hotels) = .ok res →
        r ∈ res → jsTruthyQ r.latitude = true ∧ jsTruthyQ r.longitude = true)
    ∧ (∀ (restaurants : List Place) (item : MenuItem) (p : Place),
        restaurants.find? (fun r => r.id == item.restaurantId) = some p →
        (p.latitude = some 0 ∨ p.longitude = some 0) →
        enrichItem restaurants item = .ok item) := by
  constructor
  · intro dist latS lonS hotels res r hroute hmem
    have hr : nearbyHotelsRoute dist latS lonS (.ok hotels)
        = .ok ((stableSort distKeep
            ((hotels.filter placeHasCoords).filterMap (nearbyRecord dist latS lonS))).take 5) :=
      rfl
    rw [hr] at hroute
    injection hroute with hroute
    rw [← hroute] at hmem
    have hmem2 : r ∈ (hotels.filter placeHasCoords).filterMap (nearbyRecord dist latS lonS) :=
      (mem_stableSort _ _ _).mp (List.mem_of_mem_take hmem)
    rcases List.mem_filterMap.mp hmem2 with ⟨hplace, hpmem, hrec⟩
    have hcoords : placeHasCoords hplace = true := List.of_mem_filter hpmem
    rcases nearbyRecord_coords dist latS lonS hplace r hrec with ⟨hlat, hlon⟩
    unfold placeHasCoords at hcoords
    rw [Bool.and_eq_true] at hcoords
    rw [hlat, hlon]
    exact hcoords
  · intro restaurants item p hfind hzero
    unfold enrichItem
    rw [hfind]
    have hfalse : (jsTruthyQ p.latitude && jsTruthyQ p.longitude) = false := by
      rcases hzero with hz | hz <;> simp [hz, jsTruthyQ]
    simp [hfalse]

/-- C10, witness: both parts applied at concrete records — the zero-latitude
hotel is excluded from the nearby response (the one returned record has
truthy coordinates), and enrichment leaves the item of a zero-latitude
restaurant unchanged. -/
theorem C10_witness :
    (jsTruthyQ demoNearby.latitude = true ∧ jsTruthyQ demoNearby.longitude = true)
      ∧ enrichItem [zeroPlace] teaItem = .ok teaItem :=
  ⟨C10_zero_coordinates.1 demoDist none none demoHotels [demoNearby] demoNearby
      (by decide) (by decide),
   C10_zero_coordinates.2 [zeroPlace] teaItem zeroPlace (by decide) (Or.inl rfl)⟩
